import Mathlib

/-!
Shallow embedding of the scheduling/generation core of the bbssys3
bulletin-board system (Python sources `main.py`, `persona.py`,
`bbssys3/main.py`, `bbssys3/persona.py`) together with theorems that
settle the frozen specification claims.

Texts are modelled as `List Char`; Python float arithmetic is modelled
exactly over `ℚ`; database/network effects are modelled by explicit
parameters and result values.
-/

namespace BBS

/-! ## Text utilities (Python `str.strip`, substring search, regex fragments) -/

/-- Whitespace characters removed by Python `str.strip()` (ASCII subset). -/
def isPySpace (c : Char) : Bool :=
  c = ' ' || c = '\t' || c = '\n' || c = '\r' || c = '\x0b' || c = '\x0c'

/-- Python `s.strip()`: drop leading and trailing whitespace. -/
def pyStrip (s : List Char) : List Char :=
  (s.dropWhile isPySpace).rdropWhile isPySpace

/-- Substring containment: Python `pat in s` / regex `.*pat.*` search. -/
def containsSub (pat : List Char) : List Char → Bool
  | [] => pat.isEmpty
  | c :: rest => List.isPrefixOf pat (c :: rest) || containsSub pat rest

/-- Remainder of `s` after the leftmost occurrence of `pat`; `none` if absent. -/
def dropAfterFirst (pat : List Char) : List Char → Option (List Char)
  | [] => if pat.isEmpty then some [] else none
  | c :: rest =>
      if List.isPrefixOf pat (c :: rest) then some ((c :: rest).drop pat.length)
      else dropAfterFirst pat rest

/-- Regex `.*A.*B.*` search: an occurrence of `A` followed by one of `B`. -/
def containsThen (patA patB : List Char) (s : List Char) : Bool :=
  match dropAfterFirst patA s with
  | some rest => containsSub patB rest
  | none => false

/-! ## Response validation filter (`AIManager._clean_response`, bbssys3/main.py 692-717) -/

/-- Error-pattern check applied to the stripped response
(the `error_patterns` loop with `re.IGNORECASE`): start-anchored English
refusal prefixes and Japanese error-phrase substrings. -/
def isErrorText (s : List Char) : Bool :=
  let low := s.map Char.toLower
  List.isPrefixOf ("error:".toList) low ||
  List.isPrefixOf ("sorry".toList) low ||
  List.isPrefixOf ("i apologize".toList) low ||
  List.isPrefixOf ("unable to".toList) low ||
  containsSub ("エラー".toList) low ||
  containsSub ("失敗".toList) low ||
  containsThen ("利用".toList) ("できません".toList) low ||
  containsThen ("ai".toList) ("として".toList) low ||
  containsThen ("人工知能".toList) ("です".toList) low ||
  containsThen ("助手".toList) ("です".toList) low

/-- The character class of the regex `[ひらがなカタカナ漢字]`: a regex
character class matches single characters, so this is exactly the set of
the nine literal characters appearing between the brackets. -/
def japaneseClassChars : List Char :=
  ['ひ', 'ら', 'が', 'な', 'カ', 'タ', 'ナ', '漢', '字']

/-- Number of matches of `re.findall(r'[ひらがなカタカナ漢字]', response)`. -/
def countJapanese (s : List Char) : ℕ :=
  (s.filter (fun c => japaneseClassChars.contains c)).length

/-- Embedding of `AIManager._clean_response`: reject empty input, refusal/error texts and
texts with fewer than 2 characters of the class `[ひらがなカタカナ漢字]`;
truncate to 500 characters plus an ellipsis; return the stripped text. -/
def cleanResponse (x : List Char) : List Char :=
  if x = [] then []
  else if isErrorText (pyStrip x) then []
  else if countJapanese x < 2 then []
  else if 500 < x.length then pyStrip (x.take 500 ++ ("...".toList))
  else pyStrip x

/-! ## Provider failover chain (`AIManager.generate_response`, bbssys3/main.py 613-675) -/

/-- Outcome of one external generation call: the call raised an exception,
or it returned a text (`[]` plays Python falsy `None`/`""`). -/
inductive G4FOutcome where
  | err
  | resp (text : List Char)
deriving DecidableEq

/-- One call's environment: availability flags, the ordered provider
bindings of `available_combinations` with their outcomes for this call,
and the Gemini-CLI fallback outcome. -/
structure GenEnv where
  g4fAvailable : Bool
  bindings : List G4FOutcome
  geminiAvailable : Bool
  geminiResult : G4FOutcome

/-- The primary `for combination in self.available_combinations` loop:
on a raised exception a failure statistic is recorded and the next binding
is tried; on a truthy response that survives `_clean_response` a success
statistic is recorded and the cleaned text returned; an invalid response
records nothing and falls through. Returns the result and the recorded
per-attempt statistics events (`true` = success, `false` = failure). -/
def runChain : List G4FOutcome → Option (List Char) × List Bool
  | [] => (none, [])
  | .err :: rest =>
      let r := runChain rest
      (r.1, false :: r.2)
  | .resp t :: rest =>
      if t ≠ [] ∧ cleanResponse t ≠ [] then (some (cleanResponse t), [true])
      else runChain rest

/-- The Gemini CLI fallback block of `generate_response`: when available,
a truthy response records a success and is returned, a falsy response
records a failure, and a raised exception records nothing. -/
def runFallback (geminiAvailable : Bool) (geminiResult : G4FOutcome)
    (evs : List Bool) : Option (List Char) × List Bool :=
  if geminiAvailable then
    match geminiResult with
    | .err => (none, evs)
    | .resp t =>
        if t ≠ [] then (some t, evs ++ [true])
        else (none, evs ++ [false])
  else (none, evs)

/-- Embedding of `AIManager.generate_response`: run the primary chain when g4f is
available and bindings exist, otherwise or on exhaustion fall back to the
Gemini CLI backend; return `none` when everything failed. -/
def generateResponse (env : GenEnv) : Option (List Char) × List Bool :=
  let chain :=
    if env.g4fAvailable && !env.bindings.isEmpty then runChain env.bindings
    else (none, [])
  match chain.1 with
  | some t => (some t, chain.2)
  | none => runFallback env.geminiAvailable env.geminiResult chain.2

/-! ## bbssys3 persona state and `update_activity` (bbssys3/persona.py 106-140, 608-628) -/

/-- The `EmotionalState` dataclass of bbssys3/persona.py (ten scalars). -/
structure EmotionalStateB where
  happiness : ℚ
  anger : ℚ
  sadness : ℚ
  fear : ℚ
  surprise : ℚ
  disgust : ℚ
  excitement : ℚ
  calmness : ℚ
  confidence : ℚ
  curiosity : ℚ
deriving DecidableEq

/-- The emotion field named by the `emotion_type` string argument of
`EmotionalState.update_emotion` (unknown names are a no-op in the code
because of the `hasattr` guard). -/
inductive EmotionFieldB where
  | happiness | anger | sadness | fear | surprise
  | disgust | excitement | calmness | confidence | curiosity
deriving DecidableEq

/-- Read one scalar of the bbssys3 emotional state. -/
def getEmotionB (es : EmotionalStateB) : EmotionFieldB → ℚ
  | .happiness => es.happiness
  | .anger => es.anger
  | .sadness => es.sadness
  | .fear => es.fear
  | .surprise => es.surprise
  | .disgust => es.disgust
  | .excitement => es.excitement
  | .calmness => es.calmness
  | .confidence => es.confidence
  | .curiosity => es.curiosity

/-- Embedding of `EmotionalState.update_emotion`: set the named field to
`max(0.0, min(1.0, current + delta))`. -/
def updateEmotionB (es : EmotionalStateB) (f : EmotionFieldB) (delta : ℚ) : EmotionalStateB :=
  let newValue := max 0 (min 1 (getEmotionB es f + delta))
  match f with
  | .happiness => { es with happiness := newValue }
  | .anger => { es with anger := newValue }
  | .sadness => { es with sadness := newValue }
  | .fear => { es with fear := newValue }
  | .surprise => { es with surprise := newValue }
  | .disgust => { es with disgust := newValue }
  | .excitement => { es with excitement := newValue }
  | .calmness => { es with calmness := newValue }
  | .confidence => { es with confidence := newValue }
  | .curiosity => { es with curiosity := newValue }

/-- Mutable persona state touched by `Persona.update_activity` in
bbssys3/persona.py: post count, last-post time, emotions and the bounded
interaction history. -/
structure PersonaB where
  postCount : ℕ
  lastPostTime : Option ℚ
  emotions : EmotionalStateB
  history : List (List Char)
deriving DecidableEq

/-- Positive cue words of `update_activity`. -/
def activityPositiveWords : List (List Char) :=
  ["良い".toList, "嬉しい".toList, "楽しい".toList, "最高".toList]

/-- Negative cue words of `update_activity`. -/
def activityNegativeWords : List (List Char) :=
  ["悪い".toList, "嫌".toList, "最悪".toList, "ムカつく".toList]

/-- Embedding of `Persona.update_activity`: increment the post count, set the last-post
time, nudge happiness/anger by lexical cues in the posted content, append
the content to the interaction history and keep only the last 100 records. -/
def updateActivity (now : ℚ) (p : PersonaB) (content : List Char) : PersonaB :=
  let es1 :=
    if activityPositiveWords.any (fun w => containsSub w content) then
      updateEmotionB p.emotions .happiness (1/10)
    else p.emotions
  let es2 :=
    if activityNegativeWords.any (fun w => containsSub w content) then
      updateEmotionB es1 .anger (1/10)
    else es1
  let hist := p.history ++ [content]
  { postCount := p.postCount + 1
    lastPostTime := some now
    emotions := es2
    history := if 100 < hist.length then hist.drop (hist.length - 100) else hist }

/-! ## Auto-post cycle (`PersonaManager.generate_auto_post`, bbssys3/persona.py 823-858) -/

/-- Environment of one `generate_auto_post` call: the persona selection
result, whether `_get_thread_info` succeeded, the content-generation
result (`none` or empty text both falsy in the code), whether
`_execute_post` committed successfully (`false` covers both a reported
failure and a caught exception), and the current time. -/
structure AutoPostEnv where
  selected : Option PersonaB
  threadInfoOk : Bool
  content : Option (List Char)
  commitOk : Bool
  now : ℚ

/-- Result of one `generate_auto_post` call: the boolean return value,
whether a post was committed to storage, and the selected persona's state
after the call. -/
structure AutoPostResult where
  ok : Bool
  committed : Bool
  personaAfter : Option PersonaB

/-- Embedding of `PersonaManager.generate_auto_post`: select a persona, fetch the
thread info, generate content, commit the post, and only on a successful
commit advance the persona state via `update_activity`. -/
def generateAutoPost (env : AutoPostEnv) : AutoPostResult :=
  match env.selected with
  | none => ⟨false, false, none⟩
  | some p =>
      if !env.threadInfoOk then ⟨false, false, some p⟩
      else
        match env.content with
        | none => ⟨false, false, some p⟩
        | some c =>
            if c = [] then ⟨false, false, some p⟩
            else if env.commitOk then ⟨true, true, some (updateActivity env.now p c)⟩
            else ⟨false, false, some p⟩

/-! ## Admission probability (bbssys3/main.py 4129-4144) -/

/-- The admission probability of scheduling step 2:
`min(0.8, 0.2 + (seconds_since - interval) * 0.002 + min(0.3, post_count * 0.01))`. -/
def computeAdmissionProbability (secondsSince interval : ℚ) (postCount : ℕ) : ℚ :=
  let baseProbability : ℚ := 2/10
  let timeBonus : ℚ := (secondsSince - interval) * (2/1000)
  let threadPopularity : ℚ := min (3/10) ((postCount : ℚ) * (1/100))
  min (8/10) (baseProbability + timeBonus + threadPopularity)

/-! ## Persona selection weight (src/persona.py 1235-1267) -/

/-- Generation bucket of a persona (the `generation` string; `other`
covers strings outside the four configured buckets, which take every
table's default value). -/
inductive Generation where
  | g1950s | g1970s | g1990s | g2010s | other
deriving DecidableEq

/-- The `generation_activity` hour-weight tables of the selection loop;
missing hours and unknown generations default to `1.0`. -/
def hourActivityWeight (g : Generation) (hour : ℕ) : ℚ :=
  match g with
  | .g1950s =>
      if hour = 6 then 3/2 else if hour = 7 then 3/2 else if hour = 8 then 13/10
      else if hour = 18 then 7/5 else if hour = 19 then 3/2 else if hour = 20 then 13/10
      else if hour = 22 then 3/10 else if hour = 23 then 1/5 else 1
  | .g1970s =>
      if hour = 7 then 13/10 else if hour = 8 then 7/5 else if hour = 12 then 6/5
      else if hour = 18 then 13/10 else if hour = 19 then 7/5 else if hour = 20 then 13/10
      else if hour = 21 then 6/5 else if hour = 23 then 3/10 else 1
  | .g1990s =>
      if hour = 8 then 6/5 else if hour = 12 then 7/5 else if hour = 13 then 13/10
      else if hour = 19 then 13/10 else if hour = 20 then 7/5 else if hour = 21 then 13/10
      else if hour = 22 then 6/5 else 1
  | .g2010s =>
      if hour = 12 then 13/10 else if hour = 15 then 6/5 else if hour = 16 then 6/5
      else if hour = 20 then 7/5 else if hour = 21 then 3/2 else if hour = 22 then 7/5
      else if hour = 23 then 13/10 else 1
  | .other => 1

/-- The selection weight of `generate_auto_post` in src/persona.py:
start at `1.0`; when a last-post time exists multiply by
`min(2.0, time_diff / 3600)`; multiply by the generation/hour activity
weight; multiply by `0.5 + topic_relevance`; double when
`should_post_now` fired. -/
def computeSelectionWeight (timeDiff : Option ℚ) (g : Generation) (hour : ℕ)
    (relevance : ℚ) (shouldPost : Bool) : ℚ :=
  let w1 : ℚ := 1
  let w2 := match timeDiff with
    | none => w1
    | some d => w1 * min 2 (d / 3600)
  let w3 := w2 * hourActivityWeight g hour
  let w4 := w3 * (1/2 + relevance)
  if shouldPost then w4 * 2 else w4

/-! ## Provider health record (`ProviderHealthMonitor.record_provider_result`, src/main.py 251-289) -/

/-- Stored columns of one `g4f_providers` row that the incremental
update touches. -/
structure ProviderRec where
  successRate : ℚ
  totalRequests : ℕ
  errorCount : ℕ
deriving DecidableEq

/-- Embedding of `record_provider_result`: create a fresh row on the first call
(`success_rate` 1.0 or 0.0, `total_requests` 1), otherwise apply the
incremental update
`(total_requests * success_rate + outcome) / (total_requests + 1)`. -/
def recordProviderResult (st : Option ProviderRec) (success : Bool) : ProviderRec :=
  match st with
  | some r =>
      { successRate :=
          ((r.totalRequests : ℚ) * r.successRate + (if success then 1 else 0)) /
            ((r.totalRequests : ℚ) + 1)
        totalRequests := r.totalRequests + 1
        errorCount := r.errorCount + (if success then 0 else 1) }
  | none =>
      { successRate := if success then 1 else 0
        totalRequests := 1
        errorCount := if success then 0 else 1 }

/-- The stored record after a sequence of `record_provider_result` calls
starting from no row. -/
def runRecord (l : List Bool) : Option ProviderRec :=
  l.foldl (fun st b => some (recordProviderResult st b)) none

/-! ## src/persona.py emotional state and its mutations (src/persona.py 47-59, 404-475, 638-682, 149-159) -/

/-- The `EmotionalState` dataclass of src/persona.py (ten scalars). -/
structure EmotionalState where
  happiness : ℚ
  sadness : ℚ
  anger : ℚ
  fear : ℚ
  surprise : ℚ
  excitement : ℚ
  calmness : ℚ
  curiosityEmotion : ℚ
  confidence : ℚ
  frustration : ℚ
deriving DecidableEq

/-- All ten scalars lie in `[0, 1]`. -/
def emotionsInRange (es : EmotionalState) : Prop :=
  (0 ≤ es.happiness ∧ es.happiness ≤ 1) ∧
  (0 ≤ es.sadness ∧ es.sadness ≤ 1) ∧
  (0 ≤ es.anger ∧ es.anger ≤ 1) ∧
  (0 ≤ es.fear ∧ es.fear ≤ 1) ∧
  (0 ≤ es.surprise ∧ es.surprise ≤ 1) ∧
  (0 ≤ es.excitement ∧ es.excitement ≤ 1) ∧
  (0 ≤ es.calmness ∧ es.calmness ≤ 1) ∧
  (0 ≤ es.curiosityEmotion ∧ es.curiosityEmotion ≤ 1) ∧
  (0 ≤ es.confidence ∧ es.confidence ≤ 1) ∧
  (0 ≤ es.frustration ∧ es.frustration ≤ 1)

instance (es : EmotionalState) : Decidable (emotionsInRange es) := by
  unfold emotionsInRange; infer_instance

/-- Positive stimulus words of `update_emotions`. -/
def positiveWords : List (List Char) :=
  ["嬉しい".toList, "楽しい".toList, "面白い".toList, "素晴らしい".toList,
   "良い".toList, "いい".toList]

/-- Negative stimulus words of `update_emotions`. -/
def negativeWords : List (List Char) :=
  ["悲しい".toList, "辛い".toList, "嫌".toList, "むかつく".toList,
   "最悪".toList, "ダメ".toList]

/-- Surprising stimulus words of `update_emotions`. -/
def surprisingWords : List (List Char) :=
  ["驚き".toList, "びっくり".toList, "意外".toList, "予想外".toList]

/-- The `reaction_intensity` table of `update_emotions` (default 1.0). -/
def reactionIntensity : Generation → ℚ
  | .g1950s => 4/5
  | .g1970s => 1
  | .g1990s => 11/10
  | .g2010s => 13/10
  | .other => 1

/-- The `decay_rates` table of `_decay_emotions` (default 0.05). -/
def decayRate : Generation → ℚ
  | .g1950s => 3/100
  | .g1970s => 1/20
  | .g1990s => 3/50
  | .g2010s => 2/25
  | .other => 1/20

/-- Embedding of `Persona._decay_emotions`: subtract the generation decay rate from the
transient negative emotions clamped at 0, and pull happiness, calmness and
confidence toward their baselines with a `0.95 / 0.05` convex mix. -/
def decayEmotions (g : Generation) (es : EmotionalState) : EmotionalState :=
  let rate := decayRate g
  { es with
    anger := max 0 (es.anger - rate)
    sadness := max 0 (es.sadness - rate)
    fear := max 0 (es.fear - rate)
    surprise := max 0 (es.surprise - rate)
    frustration := max 0 (es.frustration - rate)
    happiness := es.happiness * (19/20) + (1/2) * (1/20)
    calmness := es.calmness * (19/20) + (7/10) * (1/20)
    confidence := es.confidence * (19/20) + (1/2) * (1/20) }

/-- The positive-stimulus block of `update_emotions`: when some positive
word occurs in the stimulus, raise happiness and lower sadness, clamped. -/
def applyPositiveStimulus (change : ℚ) (hit : Bool) (es : EmotionalState) : EmotionalState :=
  if hit then
    { es with
      happiness := min 1 (es.happiness + change)
      sadness := max 0 (es.sadness - change * (1/2)) }
  else es

/-- The negative-stimulus block of `update_emotions`: trolls gain anger and
frustration, others gain sadness and lose happiness, clamped. -/
def applyNegativeStimulus (change : ℚ) (hit isTroll : Bool) (es : EmotionalState) : EmotionalState :=
  if hit then
    if isTroll then
      { es with
        anger := min 1 (es.anger + change * (3/2))
        frustration := min 1 (es.frustration + change) }
    else
      { es with
        sadness := min 1 (es.sadness + change)
        happiness := max 0 (es.happiness - change * (1/2)) }
  else es

/-- The surprising-stimulus block of `update_emotions`: raise surprise and
curiosity, clamped. -/
def applySurpriseStimulus (change : ℚ) (hit : Bool) (es : EmotionalState) : EmotionalState :=
  if hit then
    { es with
      surprise := min 1 (es.surprise + change * 2)
      curiosityEmotion := min 1 (es.curiosityEmotion + change) }
  else es

/-- Embedding of `Persona.update_emotions`: compute the generation- and
neuroticism-scaled emotion change, apply the positive / negative
(troll-dependent) / surprising stimulus blocks, each delta clamped into
`[0, 1]` by `min`/`max`, then run the natural decay. -/
def updateEmotions (g : Generation) (isTroll : Bool) (neuroticism : ℚ)
    (stimulus : List Char) (es : EmotionalState) : EmotionalState :=
  let intensity := reactionIntensity g
  let change0 := (1/10) * intensity
  let change := if (7 : ℚ)/10 < neuroticism then change0 * (3/2) else change0
  let es1 := applyPositiveStimulus change
    (positiveWords.any (fun w => containsSub w stimulus)) es
  let es2 := applyNegativeStimulus change
    (negativeWords.any (fun w => containsSub w stimulus)) isTroll es1
  let es3 := applySurpriseStimulus change
    (surprisingWords.any (fun w => containsSub w stimulus)) es2
  decayEmotions g es3

/-- The `learning_rates` table of `_adjust_personality_from_learning`
(default 0.010). -/
def learningRate : Generation → ℚ
  | .g1950s => 1/200
  | .g1970s => 1/125
  | .g1990s => 1/100
  | .g2010s => 3/200
  | .other => 1/100

/-- The four personality scalars touched by the learning drift. -/
structure DriftTraits where
  agreeableness : ℚ
  extroversion : ℚ
  neuroticism : ℚ
  skepticism : ℚ
deriving DecidableEq

/-- All four drift scalars lie in `[0, 1]`. -/
def traitsInRange (t : DriftTraits) : Prop :=
  (0 ≤ t.agreeableness ∧ t.agreeableness ≤ 1) ∧
  (0 ≤ t.extroversion ∧ t.extroversion ≤ 1) ∧
  (0 ≤ t.neuroticism ∧ t.neuroticism ≤ 1) ∧
  (0 ≤ t.skepticism ∧ t.skepticism ≤ 1)

instance (t : DriftTraits) : Decidable (traitsInRange t) := by
  unfold traitsInRange; infer_instance

/-- Embedding of `Persona._adjust_personality_from_learning`: compare positive and
negative interaction counts over the recent memories and nudge either
agreeableness/extroversion or neuroticism/skepticism upward by the
generation learning rate, clamped at 1. -/
def adjustPersonalityFromLearning (g : Generation) (positiveCount negativeCount : ℕ)
    (t : DriftTraits) : DriftTraits :=
  let adjustment := learningRate g
  if negativeCount < positiveCount then
    { t with
      agreeableness := min 1 (t.agreeableness + adjustment)
      extroversion := min 1 (t.extroversion + adjustment * (1/2)) }
  else if positiveCount < negativeCount then
    { t with
      neuroticism := min 1 (t.neuroticism + adjustment)
      skepticism := min 1 (t.skepticism + adjustment * (1/2)) }
  else t

/-- Embedding of `LearningMemory.update_topic_preference`: default a missing topic to
0.5, mix the current preference with the new sentiment as
`current * 0.8 + sentiment * 0.2`, and clamp the result into `[0, 1]`. -/
def updateTopicPreference (current : Option ℚ) (sentiment : ℚ) : ℚ :=
  let cur := current.getD (1/2)
  max 0 (min 1 (cur * (8/10) + sentiment * (2/10)))

/-! ## Failure predicates and concrete sample values -/

/-- A primary binding attempt that does not produce a valid response:
the call raised, or the response was falsy or was rejected by
`_clean_response`. -/
def bindingFails : G4FOutcome → Bool
  | .err => true
  | .resp t => t.isEmpty || (cleanResponse t).isEmpty

/-- The Gemini CLI fallback produces no response: it is unavailable, the
call raised, or it returned a falsy result. -/
def geminiFails (env : GenEnv) : Bool :=
  !env.geminiAvailable ||
    (match env.geminiResult with
     | .err => true
     | .resp t => t.isEmpty)

/-- A concrete bbssys3 persona state (the `EmotionalState` defaults). -/
def samplePersona : PersonaB :=
  ⟨0, none, ⟨1/2, 1/10, 1/10, 1/10, 3/10, 1/10, 2/5, 3/5, 1/2, 2/5⟩, []⟩

/-- A 501-character text whose only two characters of the class
`[ひらがなカタカナ漢字]` sit at positions 499 and 500, so that the
truncation to 500 characters cuts one of them off. -/
def truncationInput : List Char := List.replicate 499 'あ' ++ ['漢', '字']

/-! ## Theorems -/

/-- Claim C3: for every candidate thread whose elapsed time since the last
AI post is at least the minimum interval and any post count, the admission
probability of scheduling step 2 lies within `[0.2, 0.8]`, regardless of
arbitrarily large elapsed time or post count. -/
theorem C3_admission_probability_bounds (secondsSince interval : ℚ) (postCount : ℕ)
    (h : interval ≤ secondsSince) :
    2/10 ≤ computeAdmissionProbability secondsSince interval postCount ∧
      computeAdmissionProbability secondsSince interval postCount ≤ 8/10 := by
  unfold computeAdmissionProbability
  refine ⟨le_min (by norm_num) ?_, min_le_left _ _⟩
  have htime : (0:ℚ) ≤ (secondsSince - interval) * (2/1000) :=
    mul_nonneg (by linarith) (by norm_num)
  have hpop : (0:ℚ) ≤ min (3/10) ((postCount : ℚ) * (1/100)) :=
    le_min (by norm_num) (mul_nonneg (Nat.cast_nonneg _) (by norm_num))
  linarith

/-- Claim C3 witness: the bounds hold at elapsed 400s, interval 60s and
post count 50 (where the computed probability hits the 0.8 ceiling). -/
theorem C3_witness :
    (60:ℚ) ≤ 400 ∧
      (2/10 ≤ computeAdmissionProbability 400 60 50 ∧
        computeAdmissionProbability 400 60 50 ≤ 8/10) :=
  ⟨by norm_num, C3_admission_probability_bounds 400 60 50 (by norm_num)⟩

/-- Claim C4: the code rejects the Japanese greeting
`こんにちは、今日はいい天気ですね。` instead of accepting it unchanged.
The regex `[ひらがなカタカナ漢字]` is a character class matching only the
nine literal characters between the brackets, none of which occur in the
greeting, so the count 0 falls below the threshold 2 and `_clean_response`
returns the empty string. This contradicts the code's own intent (the
check is commented `日本語チェック`) and the specified scenario. -/
theorem C4_clean_rejects_japanese_greeting :
    cleanResponse ("こんにちは、今日はいい天気ですね。".toList) = [] ∧
      countJapanese ("こんにちは、今日はいい天気ですね。".toList) = 0 := by
  constructor <;> decide

/-- Every entry of the generation/hour activity tables is positive. -/
theorem hourActivityWeight_pos (g : Generation) (hour : ℕ) :
    0 < hourActivityWeight g hour := by
  cases g <;> simp only [hourActivityWeight] <;>
    first
    | (split_ifs <;> norm_num)
    | norm_num

/-- Claim C8 counterexample: a persona whose last post happened at this
very instant (`time_diff = 0`) receives selection weight exactly 0 —
`min(2.0, 0 / 3600) = 0` and no positive floor is applied — so the weight
is not strictly positive for all values of the last-post time. -/
theorem C8_counterexample :
    computeSelectionWeight (some 0) .g1990s 12 0 false = 0 ∧
      ¬ 0 < computeSelectionWeight (some 0) .g1990s 12 0 false := by
  have h : computeSelectionWeight (some 0) .g1990s 12 0 false = 0 := by
    simp only [computeSelectionWeight, hourActivityWeight]
    norm_num
  exact ⟨h, by rw [h]; norm_num⟩

/-- Claim C8 amended: the selection weight is nonnegative whenever the
topic relevance and the time since the last post are nonnegative, and it
is strictly positive whenever additionally the persona has no recorded
last-post time or the time since the last post is strictly positive;
there is no positive floor weight. -/
theorem C8_amended_weight_positive (timeDiff : Option ℚ) (g : Generation) (hour : ℕ)
    (relevance : ℚ) (shouldPost : Bool) (hrel : 0 ≤ relevance) :
    ((∀ d, timeDiff = some d → 0 ≤ d) →
      0 ≤ computeSelectionWeight timeDiff g hour relevance shouldPost) ∧
    ((timeDiff = none ∨ ∃ d, timeDiff = some d ∧ 0 < d) →
      0 < computeSelectionWeight timeDiff g hour relevance shouldPost) := by
  have hhour := hourActivityWeight_pos g hour
  have hhalf : (0:ℚ) < 1/2 + relevance := by linarith
  constructor
  · intro hd
    cases timeDiff with
    | none =>
      have base : (0:ℚ) ≤ 1 * hourActivityWeight g hour * (1/2 + relevance) := by
        have := mul_nonneg (mul_nonneg (by norm_num : (0:ℚ) ≤ 1) hhour.le) hhalf.le
        linarith
      simp only [computeSelectionWeight]
      split_ifs <;> nlinarith
    | some d =>
      have hd0 : 0 ≤ d := hd d rfl
      have hmin : (0:ℚ) ≤ min 2 (d / 3600) :=
        le_min (by norm_num) (div_nonneg hd0 (by norm_num))
      have base : (0:ℚ) ≤ 1 * min 2 (d / 3600) * hourActivityWeight g hour * (1/2 + relevance) :=
        mul_nonneg (mul_nonneg (mul_nonneg (by norm_num) hmin) hhour.le) hhalf.le
      simp only [computeSelectionWeight]
      split_ifs <;> nlinarith
  · intro hd
    rcases hd with rfl | ⟨d, rfl, hdpos⟩
    · have base : (0:ℚ) < 1 * hourActivityWeight g hour * (1/2 + relevance) := by
        have := mul_pos (mul_pos (by norm_num : (0:ℚ) < 1) hhour) hhalf
        linarith
      simp only [computeSelectionWeight]
      split_ifs <;> nlinarith
    · have hmin : (0:ℚ) < min 2 (d / 3600) :=
        lt_min (by norm_num) (div_pos hdpos (by norm_num))
      have base : (0:ℚ) < 1 * min 2 (d / 3600) * hourActivityWeight g hour * (1/2 + relevance) :=
        mul_pos (mul_pos (mul_pos (by norm_num) hmin) hhour) hhalf
      simp only [computeSelectionWeight]
      split_ifs <;> nlinarith

/-- Claim C8 amended witness: a persona one hour past its last post with
relevance 0 gets a strictly positive weight. -/
theorem C8_amended_witness :
    0 < computeSelectionWeight (some 3600) .g1990s 12 0 false :=
  (C8_amended_weight_positive (some 3600) .g1990s 12 0 false (by norm_num)).2
    (Or.inr ⟨3600, rfl, by norm_num⟩)

/-- A fold of `record_provider_result` steps starting from an existing row
always yields a row. -/
theorem runRecord_some (t : List Bool) (s : ProviderRec) :
    ∃ u, List.foldl (fun st b => some (recordProviderResult st b)) (some s) t = some u := by
  induction t generalizing s with
  | nil => exact ⟨s, rfl⟩
  | cons b t ih => simpa using ih (recordProviderResult (some s) b)

/-- Running `runRecord` yields no row exactly on the empty call sequence. -/
theorem runRecord_eq_none_iff (l : List Bool) : runRecord l = none ↔ l = [] := by
  cases l with
  | nil => simp [runRecord]
  | cons b t =>
    simp only [runRecord, List.foldl_cons]
    obtain ⟨u, hu⟩ := runRecord_some t (recordProviderResult none b)
    simp [hu]

/-- Claim C10: starting from a fresh provider record, after every sequence
of `record_provider_result` calls the stored `success_rate` equals the
number of successful attempts divided by `total_requests` — the incremental
update `(total_requests * success_rate + outcome) / (total_requests + 1)`
preserves this exactly (arithmetic modelled over ℚ) — and therefore
`success_rate` always lies in `[0, 1]`. -/
theorem C10_success_rate_exact (l : List Bool) (r : ProviderRec)
    (h : runRecord l = some r) :
    r.totalRequests = l.length ∧
      r.successRate = (l.count true : ℚ) / (l.length : ℚ) ∧
      0 ≤ r.successRate ∧ r.successRate ≤ 1 := by
  induction l using List.reverseRecOn generalizing r with
  | nil => simp [runRecord] at h
  | append_singleton l b ih =>
    rw [runRecord, List.foldl_append, List.foldl_cons, List.foldl_nil] at h
    rcases hl : (runRecord l) with _ | r0
    · have hnil : l = [] := (runRecord_eq_none_iff l).mp hl
      subst hnil
      rw [runRecord] at hl
      rw [hl] at h
      injection h with h
      subst h
      cases b <;> simp [recordProviderResult, List.count_cons]
    · obtain ⟨htot, hrate, hlo, hhi⟩ := ih r0 hl
      have hlne : l ≠ [] := by
        intro hnil
        rw [hnil, runRecord] at hl
        exact Option.noConfusion hl
      have hlen0 : 0 < l.length := List.length_pos.mpr hlne
      have hlenq : (0:ℚ) < (l.length : ℚ) := by exact_mod_cast hlen0
      rw [runRecord] at hl
      rw [hl] at h
      injection h with h
      subst h
      have hcount : l.count true ≤ l.length := List.count_le_length _ _
      constructor
      · simp [recordProviderResult, htot]
      · have hnew : (recordProviderResult (some r0) b).successRate =
            ((l.count true : ℚ) + (if b then 1 else 0)) / ((l.length : ℚ) + 1) := by
          simp only [recordProviderResult, htot, hrate]
          rw [mul_div_assoc']
          rw [mul_div_cancel_left₀ _ (ne_of_gt hlenq)]
        have hcountq : (0:ℚ) ≤ (l.count true : ℚ) := Nat.cast_nonneg _
        have hb01 : (0:ℚ) ≤ (if b then 1 else 0) ∧ ((if b then 1 else 0):ℚ) ≤ 1 := by
          cases b <;> norm_num
        refine ⟨?_, ?_, ?_⟩
        · rw [hnew]
          have hcnt : ((l ++ [b]).count true : ℚ) = (l.count true : ℚ) + (if b then 1 else 0) := by
            cases b <;> simp [List.count_append, List.count_cons]
          have hlen : (((l ++ [b]).length : ℕ) : ℚ) = (l.length : ℚ) + 1 := by
            simp
          rw [hcnt, hlen]
        · rw [hnew]
          apply div_nonneg (by linarith) (by linarith)
        · rw [hnew]
          rw [div_le_one (by linarith)]
          have : ((l.count true : ℕ) : ℚ) ≤ (l.length : ℚ) := by exact_mod_cast hcount
          linarith

/-- Claim C10 witness: after recording one success then one failure, the
stored success rate is the exact ratio 1/2 and lies in `[0, 1]`. -/
theorem C10_witness :
    (recordProviderResult (some (recordProviderResult none true)) false).totalRequests = 2 ∧
      (recordProviderResult (some (recordProviderResult none true)) false).successRate =
        (([true, false] : List Bool).count true : ℚ) / (([true, false] : List Bool).length : ℚ) ∧
      0 ≤ (recordProviderResult (some (recordProviderResult none true)) false).successRate ∧
      (recordProviderResult (some (recordProviderResult none true)) false).successRate ≤ 1 :=
  C10_success_rate_exact [true, false]
    (recordProviderResult (some (recordProviderResult none true)) false) rfl

/-- Claim C1 counterexample: two bindings where binding 1 always fails —
here by returning the refusal/invalid response `エラー`, which
`_clean_response` rejects — and binding 2 always succeeds with the valid
text `漢字です`. `generate_response` does return binding 2's cleaned
text, but the statistics record 0 failures, not K-1 = 1: the code records
a failure statistic only when the provider call raises, and records
nothing for a binding whose response is invalid. -/
theorem C1_counterexample :
    bindingFails (.resp ("エラー".toList)) = true ∧
      (generateResponse ⟨true, [.resp ("エラー".toList), .resp ("漢字です".toList)],
          false, .err⟩).1 = some (cleanResponse ("漢字です".toList)) ∧
      (generateResponse ⟨true, [.resp ("エラー".toList), .resp ("漢字です".toList)],
          false, .err⟩).2.count false = 0 ∧
      (generateResponse ⟨true, [.resp ("エラー".toList), .resp ("漢字です".toList)],
          false, .err⟩).2.count false ≠ 2 - 1 := by
  refine ⟨by decide, by decide, by decide, by decide⟩

/-- A prefix of failing bindings passes control to the rest of the chain,
recording one failure statistic per raising binding and nothing for
bindings whose response was invalid or falsy. -/
theorem runChain_failing_front (pre : List G4FOutcome)
    (hpre : ∀ b ∈ pre, bindingFails b = true) (rest : List G4FOutcome) :
    runChain (pre ++ rest) =
      ((runChain rest).1, List.replicate (pre.count .err) false ++ (runChain rest).2) := by
  induction pre with
  | nil => simp
  | cons b pre ih =>
    have hpre' : ∀ x ∈ pre, bindingFails x = true := fun x hx => hpre x (by simp [hx])
    cases b with
    | err =>
      simp [runChain, ih hpre', List.count_cons, List.replicate_succ]
    | resp s =>
      have hb := hpre _ (List.mem_cons_self _ _)
      simp only [bindingFails, Bool.or_eq_true, List.isEmpty_iff] at hb
      have hnot : ¬ (s ≠ [] ∧ cleanResponse s ≠ []) := by tauto
      simp only [List.cons_append, runChain, if_neg hnot, List.count_cons]
      simpa using ih hpre'

/-- Claim C1 amended: for every configuration of K provider bindings in
which bindings 1..K-1 always fail — each by raising or by producing an
invalid/falsy response — and binding K always succeeds with a valid
response, one `generate_response` call returns the cleaned success text
from binding K and records exactly 1 success; but a failure statistic is
recorded only for the raising bindings, so the statistics show F failures
where F is the number of raising bindings among 1..K-1 (F = K-1 exactly
when every failing binding raises). -/
theorem C1_amended_failover (pre : List G4FOutcome)
    (hpre : ∀ b ∈ pre, bindingFails b = true) (t : List Char)
    (ht : t ≠ []) (hvalid : cleanResponse t ≠ [])
    (geminiAvailable : Bool) (geminiResult : G4FOutcome) :
    (generateResponse ⟨true, pre ++ [.resp t],
        geminiAvailable, geminiResult⟩).1 = some (cleanResponse t) ∧
      (generateResponse ⟨true, pre ++ [.resp t],
        geminiAvailable, geminiResult⟩).2.count false = pre.count .err ∧
      (generateResponse ⟨true, pre ++ [.resp t],
        geminiAvailable, geminiResult⟩).2.count true = 1 := by
  have hchain : runChain (pre ++ [.resp t]) =
      (some (cleanResponse t), List.replicate (pre.count .err) false ++ [true]) := by
    rw [runChain_failing_front pre hpre]
    simp [runChain, ht, hvalid]
  have hguard : (true && !(pre ++ [G4FOutcome.resp t]).isEmpty) = true := by
    simp [List.isEmpty_iff]
  simp only [generateResponse]
  rw [if_pos hguard, hchain]
  refine ⟨rfl, ?_, ?_⟩ <;>
    simp [List.count_append, List.count_replicate, List.count_cons, List.count_nil]

/-- Claim C1 amended witness: three bindings — one raising, one answering
the invalid `エラー`, one answering the valid `漢字です` — return the
valid text with exactly one recorded failure (the raising binding only)
and one recorded success. -/
theorem C1_witness :
    (generateResponse ⟨true, [.err, .resp ("エラー".toList), .resp ("漢字です".toList)],
        false, .err⟩).1 = some (cleanResponse ("漢字です".toList)) ∧
      (generateResponse ⟨true, [.err, .resp ("エラー".toList), .resp ("漢字です".toList)],
        false, .err⟩).2.count false =
        ([.err, .resp ("エラー".toList)] : List G4FOutcome).count .err ∧
      (generateResponse ⟨true, [.err, .resp ("エラー".toList), .resp ("漢字です".toList)],
        false, .err⟩).2.count true = 1 :=
  C1_amended_failover [.err, .resp ("エラー".toList)] (by decide)
    ("漢字です".toList) (by decide) (by decide) false .err

/-- A chain all of whose bindings fail produces no response. -/
theorem runChain_all_fail (bs : List G4FOutcome)
    (h : ∀ b ∈ bs, bindingFails b = true) : (runChain bs).1 = none := by
  induction bs with
  | nil => rfl
  | cons b rest ih =>
    have hrest : ∀ x ∈ rest, bindingFails x = true := fun x hx => h x (by simp [hx])
    cases b with
    | err => simpa [runChain] using ih hrest
    | resp t =>
      have hb := h _ (List.mem_cons_self _ _)
      simp only [bindingFails, Bool.or_eq_true, List.isEmpty_iff] at hb
      have hnot : ¬ (t ≠ [] ∧ cleanResponse t ≠ []) := by tauto
      simp only [runChain, if_neg hnot]
      exact ih hrest

/-- A failing or unavailable fallback backend produces no response. -/
theorem runFallback_fail (ga : Bool) (gr : G4FOutcome) (evs : List Bool)
    (h : (!ga || (match gr with | .err => true | .resp t => t.isEmpty)) = true) :
    (runFallback ga gr evs).1 = none := by
  cases ga with
  | false => simp [runFallback]
  | true =>
    cases gr with
    | err => simp [runFallback]
    | resp t =>
      simp only [Bool.not_true, Bool.false_or] at h
      have ht : t = [] := by simpa using h
      subst ht
      simp [runFallback]

/-- Claim C2: whenever every provider binding fails and the fallback
backend fails or is unavailable, `generate_response` returns `None`
(not-ok) rather than raising; and a `generate_auto_post` cycle whose
content generation produced nothing returns `False`, commits no post and
advances no persona state — the scheduling cycle merely skips that
candidate. -/
theorem C2_total_failure_not_fatal :
    (∀ env : GenEnv, (∀ b ∈ env.bindings, bindingFails b = true) →
      geminiFails env = true → (generateResponse env).1 = none) ∧
    (∀ env : AutoPostEnv, (env.content = none ∨ env.content = some []) →
      (generateAutoPost env).ok = false ∧ (generateAutoPost env).committed = false ∧
        (generateAutoPost env).personaAfter = env.selected) := by
  constructor
  · intro env hb hg
    have hchain1 :
        (if env.g4fAvailable && !env.bindings.isEmpty then runChain env.bindings
         else (none, [])).1 = none := by
      split_ifs with hguard
      · exact runChain_all_fail env.bindings hb
      · rfl
    unfold generateResponse
    rcases hres :
        (if env.g4fAvailable && !env.bindings.isEmpty then runChain env.bindings
         else (none, [])) with ⟨r1, evs⟩
    rw [hres] at hchain1
    simp only at hchain1
    subst hchain1
    show (runFallback env.geminiAvailable env.geminiResult evs).1 = none
    exact runFallback_fail _ _ _ hg
  · intro env hc
    unfold generateAutoPost
    rcases hsel : env.selected with _ | p
    · exact ⟨rfl, rfl, rfl⟩
    · rcases hc with hc | hc <;> rw [hc] <;> cases hti : env.threadInfoOk <;> simp

/-- Claim C2 witness: a raising binding plus an invalid-response binding
with an unavailable fallback return `None`, and a cycle with no generated
content returns `False` without committing or touching the persona. -/
theorem C2_witness :
    (generateResponse ⟨true, [.err, .resp []], false, .err⟩).1 = none ∧
      (generateAutoPost ⟨some samplePersona, true, none, true, 0⟩).ok = false ∧
      (generateAutoPost ⟨some samplePersona, true, none, true, 0⟩).committed = false := by
  refine ⟨C2_total_failure_not_fatal.1 _ (by decide) (by decide), ?_, ?_⟩
  · exact (C2_total_failure_not_fatal.2 ⟨some samplePersona, true, none, true, 0⟩ (Or.inl rfl)).1
  · exact (C2_total_failure_not_fatal.2 ⟨some samplePersona, true, none, true, 0⟩ (Or.inl rfl)).2.1

/-- Claim C7: if committing a generated post to storage fails (the insert
reports failure or raises), `generate_auto_post` returns `False` and the
selected persona's state is not advanced — no post-count increment, no
last-post time, no emotion/memory update — so it stays eligible next
cycle. -/
theorem C7_storage_failure_no_advance (env : AutoPostEnv) (p : PersonaB) (c : List Char)
    (hsel : env.selected = some p) (hc : env.content = some c) (hcne : c ≠ [])
    (hcommit : env.commitOk = false) :
    (generateAutoPost env).ok = false ∧ (generateAutoPost env).committed = false ∧
      (generateAutoPost env).personaAfter = some p := by
  unfold generateAutoPost
  rw [hsel, hc]
  cases hti : env.threadInfoOk <;> simp [hcne, hcommit]

/-- Claim C7 witness: a concrete cycle whose commit fails leaves the
sample persona exactly as it was. -/
theorem C7_witness :
    (generateAutoPost ⟨some samplePersona, true, some ("テスト".toList), false, 0⟩).ok = false ∧
      (generateAutoPost ⟨some samplePersona, true, some ("テスト".toList), false, 0⟩).committed = false ∧
      (generateAutoPost ⟨some samplePersona, true, some ("テスト".toList), false, 0⟩).personaAfter =
        some samplePersona :=
  C7_storage_failure_no_advance _ samplePersona ("テスト".toList) rfl rfl (by decide) rfl

/-- A value clamped by `max 0 (min 1 ·)` lies in `[0, 1]`. -/
theorem clamp01_bounds (v : ℚ) : 0 ≤ max 0 (min 1 v) ∧ max 0 (min 1 v) ≤ 1 :=
  ⟨le_max_left _ _, max_le (by norm_num) (min_le_left _ _)⟩

/-- Adding a nonnegative delta under a `min 1` clamp stays in `[0, 1]`. -/
theorem min1_add_bounds {e d : ℚ} (he : 0 ≤ e) (hd : 0 ≤ d) :
    0 ≤ min 1 (e + d) ∧ min 1 (e + d) ≤ 1 :=
  ⟨le_min (by norm_num) (by linarith), min_le_left _ _⟩

/-- Subtracting a nonnegative delta under a `max 0` clamp stays in `[0, 1]`. -/
theorem max0_sub_bounds {e d : ℚ} (he : e ≤ 1) (hd : 0 ≤ d) :
    0 ≤ max 0 (e - d) ∧ max 0 (e - d) ≤ 1 :=
  ⟨le_max_left _ _, max_le (by norm_num) (by linarith)⟩

/-- The `0.95 / 0.05` convex mix toward a baseline in `[0, 1]` stays in
`[0, 1]`. -/
theorem decay_mix_bounds {e c : ℚ} (he0 : 0 ≤ e) (he1 : e ≤ 1)
    (hc0 : 0 ≤ c) (hc1 : c ≤ 1) :
    0 ≤ e * (19/20) + c * (1/20) ∧ e * (19/20) + c * (1/20) ≤ 1 :=
  ⟨by nlinarith, by nlinarith⟩

/-- Every generation's reaction intensity is nonnegative. -/
theorem reactionIntensity_nonneg (g : Generation) : 0 ≤ reactionIntensity g := by
  cases g <;> norm_num [reactionIntensity]

/-- Every generation's decay rate is nonnegative. -/
theorem decayRate_nonneg (g : Generation) : 0 ≤ decayRate g := by
  cases g <;> norm_num [decayRate]

/-- Every generation's learning rate is nonnegative. -/
theorem learningRate_nonneg (g : Generation) : 0 ≤ learningRate g := by
  cases g <;> norm_num [learningRate]

/-- The emotion decay keeps all ten scalars in `[0, 1]`. -/
theorem decayEmotions_inRange (g : Generation) (es : EmotionalState)
    (h : emotionsInRange es) : emotionsInRange (decayEmotions g es) := by
  obtain ⟨⟨hh0, hh1⟩, ⟨hs0, hs1⟩, ⟨ha0, ha1⟩, ⟨hf0, hf1⟩, ⟨hu0, hu1⟩,
    he, ⟨hc0, hc1⟩, hq, ⟨ho0, ho1⟩, ⟨hr0, hr1⟩⟩ := h
  have hrate := decayRate_nonneg g
  unfold decayEmotions
  exact ⟨decay_mix_bounds hh0 hh1 (by norm_num) (by norm_num),
    max0_sub_bounds hs1 hrate, max0_sub_bounds ha1 hrate,
    max0_sub_bounds hf1 hrate, max0_sub_bounds hu1 hrate, he,
    decay_mix_bounds hc0 hc1 (by norm_num) (by norm_num), hq,
    decay_mix_bounds ho0 ho1 (by norm_num) (by norm_num),
    max0_sub_bounds hr1 hrate⟩

/-- The positive-stimulus block keeps all scalars in `[0, 1]`. -/
theorem applyPositiveStimulus_inRange {c : ℚ} (hc : 0 ≤ c) (hit : Bool)
    (es : EmotionalState) (h : emotionsInRange es) :
    emotionsInRange (applyPositiveStimulus c hit es) := by
  obtain ⟨⟨hh0, hh1⟩, ⟨hs0, hs1⟩, ha, hf, hu, he, hca, hq, ho, hr⟩ := h
  unfold applyPositiveStimulus
  split_ifs
  · exact ⟨min1_add_bounds hh0 hc, max0_sub_bounds hs1 (by linarith),
      ha, hf, hu, he, hca, hq, ho, hr⟩
  · exact ⟨⟨hh0, hh1⟩, ⟨hs0, hs1⟩, ha, hf, hu, he, hca, hq, ho, hr⟩

/-- The negative-stimulus block keeps all scalars in `[0, 1]`. -/
theorem applyNegativeStimulus_inRange {c : ℚ} (hc : 0 ≤ c) (hit isTroll : Bool)
    (es : EmotionalState) (h : emotionsInRange es) :
    emotionsInRange (applyNegativeStimulus c hit isTroll es) := by
  obtain ⟨⟨hh0, hh1⟩, ⟨hs0, hs1⟩, ⟨ha0, ha1⟩, hf, hu, he, hca, hq, ho, ⟨hr0, hr1⟩⟩ := h
  unfold applyNegativeStimulus
  split_ifs
  · exact ⟨⟨hh0, hh1⟩, ⟨hs0, hs1⟩, min1_add_bounds ha0 (by linarith),
      hf, hu, he, hca, hq, ho, min1_add_bounds hr0 hc⟩
  · exact ⟨max0_sub_bounds hh1 (by linarith), min1_add_bounds hs0 hc,
      ⟨ha0, ha1⟩, hf, hu, he, hca, hq, ho, ⟨hr0, hr1⟩⟩
  · exact ⟨⟨hh0, hh1⟩, ⟨hs0, hs1⟩, ⟨ha0, ha1⟩, hf, hu, he, hca, hq, ho, ⟨hr0, hr1⟩⟩

/-- The surprising-stimulus block keeps all scalars in `[0, 1]`. -/
theorem applySurpriseStimulus_inRange {c : ℚ} (hc : 0 ≤ c) (hit : Bool)
    (es : EmotionalState) (h : emotionsInRange es) :
    emotionsInRange (applySurpriseStimulus c hit es) := by
  obtain ⟨hh, hs, ha, hf, ⟨hu0, hu1⟩, he, hca, ⟨hq0, hq1⟩, ho, hr⟩ := h
  unfold applySurpriseStimulus
  split_ifs
  · exact ⟨hh, hs, ha, hf, min1_add_bounds hu0 (by linarith), he, hca,
      min1_add_bounds hq0 hc, ho, hr⟩
  · exact ⟨hh, hs, ha, hf, ⟨hu0, hu1⟩, he, hca, ⟨hq0, hq1⟩, ho, hr⟩

/-- Applying `update_emotions` keeps all scalars in `[0, 1]`. -/
theorem updateEmotions_inRange (g : Generation) (isTroll : Bool) (neuroticism : ℚ)
    (stimulus : List Char) (es : EmotionalState) (h : emotionsInRange es) :
    emotionsInRange (updateEmotions g isTroll neuroticism stimulus es) := by
  have hri := reactionIntensity_nonneg g
  have hch : 0 ≤ (if (7 : ℚ)/10 < neuroticism
      then (1/10) * reactionIntensity g * (3/2)
      else (1/10) * reactionIntensity g) := by
    split_ifs <;> nlinarith
  unfold updateEmotions
  exact decayEmotions_inRange g _
    (applySurpriseStimulus_inRange hch _ _
      (applyNegativeStimulus_inRange hch _ _ _
        (applyPositiveStimulus_inRange hch _ _ h)))

/-- Applying `update_emotion` (bbssys3) clamps the touched field into `[0, 1]`. -/
theorem updateEmotionB_bounds (es : EmotionalStateB) (f : EmotionFieldB) (delta : ℚ) :
    0 ≤ getEmotionB (updateEmotionB es f delta) f ∧
      getEmotionB (updateEmotionB es f delta) f ≤ 1 := by
  cases f <;> exact clamp01_bounds _

/-- The learning-driven personality drift keeps all four scalars in `[0, 1]`. -/
theorem adjustPersonality_inRange (g : Generation) (pos neg : ℕ) (t : DriftTraits)
    (h : traitsInRange t) : traitsInRange (adjustPersonalityFromLearning g pos neg t) := by
  obtain ⟨⟨hag0, hag1⟩, ⟨hex0, hex1⟩, ⟨hne0, hne1⟩, ⟨hsk0, hsk1⟩⟩ := h
  have hadj := learningRate_nonneg g
  unfold adjustPersonalityFromLearning
  split_ifs
  · exact ⟨min1_add_bounds hag0 hadj, min1_add_bounds hex0 (by linarith),
      ⟨hne0, hne1⟩, ⟨hsk0, hsk1⟩⟩
  · exact ⟨⟨hag0, hag1⟩, ⟨hex0, hex1⟩, min1_add_bounds hne0 hadj,
      min1_add_bounds hsk0 (by linarith)⟩
  · exact ⟨⟨hag0, hag1⟩, ⟨hex0, hex1⟩, ⟨hne0, hne1⟩, ⟨hsk0, hsk1⟩⟩

/-- The topic-preference update always lands in `[0, 1]`. -/
theorem updateTopicPreference_bounds (current : Option ℚ) (sentiment : ℚ) :
    0 ≤ updateTopicPreference current sentiment ∧
      updateTopicPreference current sentiment ≤ 1 :=
  clamp01_bounds _

/-- Claim C6: every persona trait/emotion mutation — the bbssys3
per-field emotion update, the emotion updates from lexical stimuli, the
emotion decay, the learning-driven personality drift and the
topic-preference update — keeps every scalar it touches within `[0, 1]`,
starting from a state whose scalars are all in `[0, 1]`. -/
theorem C6_mutation_clamping :
    (∀ (es : EmotionalStateB) (f : EmotionFieldB) (delta : ℚ),
      0 ≤ getEmotionB (updateEmotionB es f delta) f ∧
        getEmotionB (updateEmotionB es f delta) f ≤ 1) ∧
    (∀ (g : Generation) (isTroll : Bool) (neuroticism : ℚ) (stimulus : List Char)
        (es : EmotionalState), emotionsInRange es →
      emotionsInRange (updateEmotions g isTroll neuroticism stimulus es)) ∧
    (∀ (g : Generation) (es : EmotionalState), emotionsInRange es →
      emotionsInRange (decayEmotions g es)) ∧
    (∀ (g : Generation) (pos neg : ℕ) (t : DriftTraits), traitsInRange t →
      traitsInRange (adjustPersonalityFromLearning g pos neg t)) ∧
    (∀ (current : Option ℚ) (sentiment : ℚ),
      0 ≤ updateTopicPreference current sentiment ∧
        updateTopicPreference current sentiment ≤ 1) :=
  ⟨updateEmotionB_bounds,
   fun g i nu st es h => updateEmotions_inRange g i nu st es h,
   fun g es h => decayEmotions_inRange g es h,
   fun g p n t h => adjustPersonality_inRange g p n t h,
   updateTopicPreference_bounds⟩

/-- Claim C6 witness: applying `update_emotions` with a positive stimulus
to the default emotional state keeps every scalar in `[0, 1]`. -/
theorem C6_witness :
    emotionsInRange (updateEmotions .g1990s false (1/2) ("嬉しい".toList)
      ⟨1/2, 0, 0, 0, 0, 3/10, 7/10, 2/5, 1/2, 0⟩) :=
  C6_mutation_clamping.2.1 .g1990s false (1/2) ("嬉しい".toList)
    ⟨1/2, 0, 0, 0, 0, 3/10, 7/10, 2/5, 1/2, 0⟩ (by norm_num [emotionsInRange])

/-- Re-dropping a leading run after trimming a trailing run changes
nothing when the leading run is already gone. -/
theorem dropWhile_rdropWhile_dropWhile (p : Char → Bool) (l : List Char) :
    ((l.dropWhile p).rdropWhile p).dropWhile p = (l.dropWhile p).rdropWhile p := by
  induction l with
  | nil => rfl
  | cons a t ih =>
    by_cases hpa : p a
    · rw [List.dropWhile_cons_of_pos hpa]
      exact ih
    · rw [List.dropWhile_cons_of_neg hpa]
      obtain ⟨w, hw⟩ := List.rdropWhile_prefix p (a :: t)
      rcases hv : (a :: t).rdropWhile p with _ | ⟨b, v⟩
      · simp
      · rw [hv] at hw
        rw [List.cons_append] at hw
        obtain ⟨hb, -⟩ := List.cons_eq_cons.mp hw
        subst hb
        exact List.dropWhile_cons_of_neg hpa

/-- Stripping is idempotent. -/
theorem pyStrip_idem (s : List Char) : pyStrip (pyStrip s) = pyStrip s := by
  unfold pyStrip
  rw [dropWhile_rdropWhile_dropWhile, List.rdropWhile_idempotent]

/-- Dropping a leading run of `p`-characters does not change the `q`-count
when no character satisfies both predicates. -/
theorem filter_dropWhile_of_incompatible (q p : Char → Bool)
    (hpq : ∀ c, p c = true → q c = false) (l : List Char) :
    (l.dropWhile p).filter q = l.filter q := by
  induction l with
  | nil => rfl
  | cons a t ih =>
    by_cases hpa : p a
    · rw [List.dropWhile_cons_of_pos hpa, List.filter_cons, if_neg (by simp [hpq a hpa])]
      exact ih
    · rw [List.dropWhile_cons_of_neg hpa]

/-- Stripping whitespace does not change the `q`-count when no whitespace
character satisfies `q`. -/
theorem filter_pyStrip (q : Char → Bool)
    (hpq : ∀ c, isPySpace c = true → q c = false) (l : List Char) :
    (pyStrip l).filter q = l.filter q := by
  unfold pyStrip
  simp only [List.rdropWhile]
  rw [List.filter_reverse, filter_dropWhile_of_incompatible q isPySpace hpq,
    ← List.filter_reverse, List.reverse_reverse,
    filter_dropWhile_of_incompatible q isPySpace hpq]

/-- No whitespace character belongs to the `[ひらがなカタカナ漢字]` class. -/
theorem pySpace_not_japanese :
    ∀ c, isPySpace c = true → japaneseClassChars.contains c = false := by
  intro c hc
  simp only [isPySpace, Bool.or_eq_true, decide_eq_true_eq] at hc
  rcases hc with ((((hc | hc) | hc) | hc) | hc) | hc <;> subst hc <;> decide

/-- Stripping preserves the count of class characters. -/
theorem countJapanese_pyStrip (s : List Char) :
    countJapanese (pyStrip s) = countJapanese s := by
  unfold countJapanese
  rw [filter_pyStrip _ pySpace_not_japanese]

/-- Stripping never lengthens a text. -/
theorem pyStrip_length_le (s : List Char) : (pyStrip s).length ≤ s.length := by
  unfold pyStrip
  have h1 : ((s.dropWhile isPySpace).rdropWhile isPySpace).length ≤
      (s.dropWhile isPySpace).length :=
    ( List.rdropWhile_prefix _ _).length_le
  have h2 : (s.dropWhile isPySpace).length ≤ s.length :=
    (List.dropWhile_sublist _).length_le
  omega

set_option maxRecDepth 4000 in
/-- Claim C5 counterexample: the validation filter is not idempotent. The
501-character text `truncationInput` has exactly the two required class
characters, at positions 499 and 500; `Clean` accepts it and truncates it
to 500 characters plus an ellipsis, cutting off one class character, so
re-validating the accepted output rejects it. -/
theorem C5_counterexample :
    cleanResponse (cleanResponse truncationInput) ≠ cleanResponse truncationInput := by
  decide

/-- Claim C5 amended: the validation filter is idempotent on every text it
does not truncate (length at most 500): `Clean(Clean x) = Clean x`, and in
particular re-validating an already-rejected (emptied) text yields
rejection again. Idempotence can fail only through the truncation path. -/
theorem C5_amended_idempotent_untruncated (x : List Char) (hlen : x.length ≤ 500) :
    cleanResponse (cleanResponse x) = cleanResponse x := by
  by_cases hx : x = []
  · subst hx; rfl
  · by_cases herr : isErrorText (pyStrip x) = true
    · have h1 : cleanResponse x = [] := by
        unfold cleanResponse
        rw [if_neg hx, if_pos herr]
      rw [h1]
      rfl
    · by_cases hcount : countJapanese x < 2
      · have h1 : cleanResponse x = [] := by
          unfold cleanResponse
          rw [if_neg hx, if_neg herr, if_pos hcount]
        rw [h1]
        rfl
      · have hlen1 : ¬ 500 < x.length := by omega
        have h1 : cleanResponse x = pyStrip x := by
          unfold cleanResponse
          rw [if_neg hx, if_neg herr, if_neg hcount, if_neg hlen1]
        rw [h1]
        by_cases hps : pyStrip x = []
        · rw [hps]
          rfl
        · have herr2 : ¬ isErrorText (pyStrip (pyStrip x)) = true := by
            rw [pyStrip_idem]; exact herr
          have hcount2 : ¬ countJapanese (pyStrip x) < 2 := by
            rw [countJapanese_pyStrip]; exact hcount
          have hlen2 : ¬ 500 < (pyStrip x).length := by
            have := pyStrip_length_le x
            omega
          unfold cleanResponse
          rw [if_neg hps, if_neg herr2, if_neg hcount2, if_neg hlen2]
          exact pyStrip_idem x

/-- Claim C5 amended witness: idempotence at the accepted text `漢字です`. -/
theorem C5_witness :
    cleanResponse (cleanResponse ("漢字です".toList)) = cleanResponse ("漢字です".toList) :=
  C5_amended_idempotent_untruncated ("漢字です".toList) (by decide)

end BBS
